import Mathlib

/-!
Verification of the football-analytics value-bet engine.

The repository couples a FastAPI backend (Elo ratings, value-bet
detection, odds-combination search) with a React frontend.  The backend
modules (elo.py, prediction_engine.py) are not present in the source
tree, so the Elo model, the value-bet evaluator and the combination
search are modelled here from the specification; the frontend helpers
(match filtering, best-bet selection, the circular news list) are
embedded directly from the JavaScript source.

Definitions come first, followed by the lemmas and theorems.
-/

namespace FootballPredict

/-! EloModel -/

/-- Modelled from the spec: the backend file `backend/app/elo.py` is not in
the source tree.  The spec gives the standard logistic formula
`1 / (1 + 10^((ratingB - ratingA - homeAdvantage) / 400))`. -/
noncomputable def expectedScore (ratingA ratingB homeAdvantage : ℝ) : ℝ :=
  1 / (1 + (10 : ℝ) ^ ((ratingB - ratingA - homeAdvantage) / 400))

/-- Per-match outcome distribution (home win, draw, away win). -/
structure OutcomeProbs where
  home : ℝ
  draw : ℝ
  away : ℝ

/-- Modelled from the spec: the backend file `backend/app/elo.py` is not in
the source tree.  The spec derives the three-way distribution from the
two-way expected score by allocating a draw probability band (the
drawFactor parameter, a base draw likelihood) and splitting the remainder
proportionally to the expected scores. -/
noncomputable def outcomeProbabilities
    (homeRating awayRating homeAdvantage drawFactor : ℝ) : OutcomeProbs :=
  let eHome := expectedScore homeRating awayRating homeAdvantage
  let eAway := expectedScore awayRating homeRating (-homeAdvantage)
  { home := (1 - drawFactor) * (eHome / (eHome + eAway))
    draw := drawFactor
    away := (1 - drawFactor) * (eAway / (eHome + eAway)) }

/-- Modelled from the spec: the backend file `backend/app/elo.py` is not in
the source tree.  The spec gives
`updateRating(rating, expectedScore, actualScore, kFactor) =
rating + kFactor * (actualScore - expectedScore)`.  Ratings and factors
are plain arithmetic, so the model is over the rationals. -/
def updateRating (rating expected actual kFactor : ℚ) : ℚ :=
  rating + kFactor * (actual - expected)

/-! ValueBetEvaluator -/

/-- Model probabilities for the three outcomes of one match. -/
structure ModelProbs where
  home : ℚ
  draw : ℚ
  away : ℚ

/-- Bookmaker decimal odds for the three outcomes of one match. -/
structure MatchOdds where
  home : ℚ
  draw : ℚ
  away : ℚ

/-- Rounding to one decimal place, as the spec requires for value%. -/
def roundTo1 (x : ℚ) : ℚ := ((round (x * 10) : ℤ) : ℚ) / 10

/-- Modelled from the spec: the backend evaluator (value-bet detection in
the backend application code) is not in the source tree.  The spec gives
value% = (modelProbability - impliedProbability) / impliedProbability
* 100 with impliedProbability = 1/odds, rounded to one decimal. -/
def valuePercent (modelProb odds : ℚ) : ℚ :=
  roundTo1 ((modelProb - 1 / odds) / (1 / odds) * 100)

/-- Typed errors of the evaluator, from the spec error taxonomy. -/
inductive EvalError where
  | InvalidInput : EvalError
  | InvalidOdds : EvalError
deriving DecidableEq

/-- Per-outcome value annotation: implied probability and value%. -/
structure ValueAnnotation where
  implied_home : ℚ
  implied_draw : ℚ
  implied_away : ℚ
  value_home : ℚ
  value_draw : ℚ
  value_away : ℚ
deriving DecidableEq

/-- The annotation built from model probabilities and bookmaker odds. -/
def annotate (p : ModelProbs) (o : MatchOdds) : ValueAnnotation :=
  { implied_home := 1 / o.home
    implied_draw := 1 / o.draw
    implied_away := 1 / o.away
    value_home := valuePercent p.home o.home
    value_draw := valuePercent p.draw o.draw
    value_away := valuePercent p.away o.away }

/-- Modelled from the spec: the backend evaluator is not in the source
tree.  The spec requires odds ≤ 1.0 for any outcome to fail with the
typed error InvalidOdds before any division happens, and otherwise to
return the per-outcome value annotations. -/
def evaluate (p : ModelProbs) (o : MatchOdds) :
    Except EvalError ValueAnnotation :=
  if o.home ≤ 1 ∨ o.draw ≤ 1 ∨ o.away ≤ 1 then
    Except.error EvalError.InvalidOdds
  else
    Except.ok (annotate p o)

/-! Frontend value-bet display and filtering (App.js) -/

/-- The match record as the frontend sees it: per-outcome value% and
decimal odds (fields value_home, value_draw, value_away, home_odds,
draw_odds, away_odds of the API match object). -/
structure MatchRow where
  value_home : ℚ
  value_draw : ℚ
  value_away : ℚ
  home_odds : ℚ
  draw_odds : ℚ
  away_odds : ℚ

/-- The four filter states of the frontend match list. -/
inductive Filter where
  | all : Filter
  | home : Filter
  | draw : Filter
  | away : Filter

/-- The predicate of filteredMatches in App.js: filter "all" keeps every
match, the outcome filters keep matches whose value% for that outcome is
strictly positive. -/
def matchPassesFilter (f : Filter) (m : MatchRow) : Bool :=
  match f with
  | Filter.all => true
  | Filter.home => decide (0 < m.value_home)
  | Filter.draw => decide (0 < m.value_draw)
  | Filter.away => decide (0 < m.value_away)

/-- The CSS class chosen in App.js for a value% cell: positive when the
value is strictly greater than 0, neutral otherwise. -/
def valueClass (v : ℚ) : String :=
  if 0 < v then "positive" else "neutral"

/-- Default value-bet threshold from the spec (strictly positive value%). -/
def defaultThreshold : ℚ := 0

/-- Modelled from the spec: the backend evaluator flagging code is not in
the source tree.  An outcome is a value bet iff its value% exceeds the
configurable threshold. -/
def isValueBet (threshold v : ℚ) : Bool :=
  decide (threshold < v)

/-- One candidate bet row built by getBestBet in App.js. -/
structure Bet where
  type : String
  value : ℚ
  odds : ℚ

/-- getBestBet from App.js: builds the three candidate bets in the fixed
order Home Win, Draw, Away Win and reduces them with the strict
comparison current.value > best.value (JavaScript reduce with no initial
accumulator starts from the first element). -/
def getBestBet (m : MatchRow) : Bet :=
  List.foldl
    (fun best current => if best.value < current.value then current else best)
    { type := "Home Win", value := m.value_home, odds := m.home_odds }
    [{ type := "Draw", value := m.value_draw, odds := m.draw_odds },
     { type := "Away Win", value := m.value_away, odds := m.away_odds }]

/-! CircularLinkedList (frontend/src/utils/CircularLinkedList.js)

The JavaScript class keeps a doubly linked circular chain of nodes with
a head pointer, a current pointer and a size counter.  New nodes are
inserted at the tail (just before head), so the traversal order from
head equals insertion order; the state is embedded as that traversal
list together with the index of the current node and the size counter.
The current pointer is null exactly when the list is empty, in which
case the index is irrelevant. -/

structure CircularList (α : Type) where
  items : List α
  cur : ℕ
  size : ℕ

namespace CircularList

/-- The freshly constructed list: no head, no current, size 0. -/
def empty {α : Type} : CircularList α := { items := [], cur := 0, size := 0 }

/-- add from CircularLinkedList.js: the first node becomes head and
current; later nodes are appended at the tail; size always grows. -/
def add {α : Type} (s : CircularList α) (x : α) : CircularList α :=
  if s.items.isEmpty then { items := [x], cur := 0, size := s.size + 1 }
  else { items := s.items ++ [x], cur := s.cur, size := s.size + 1 }

/-- clear from CircularLinkedList.js: drops head and current, size 0. -/
def clear {α : Type} (_ : CircularList α) : CircularList α := empty

/-- rebuild from CircularLinkedList.js: clear, then add every item. -/
def rebuild {α : Type} (s : CircularList α) (xs : List α) : CircularList α :=
  xs.foldl add (clear s)

/-- toArray from CircularLinkedList.js: walk from head until the cycle
closes, collecting the data; that is the traversal list itself. -/
def toArray {α : Type} (s : CircularList α) : List α := s.items

/-- getSize from CircularLinkedList.js: the maintained size counter. -/
def getSize {α : Type} (s : CircularList α) : ℕ := s.size

/-- getCurrent from CircularLinkedList.js: data of the current node, or
null (none) when there is no current node. -/
def getCurrent {α : Type} (s : CircularList α) : Option α :=
  s.items[s.cur]?

/-- next from CircularLinkedList.js: with no current node return null and
stay; otherwise move current one step along the cycle. -/
def next {α : Type} (s : CircularList α) : CircularList α :=
  if s.items.isEmpty then s
  else { s with cur := (s.cur + 1) % s.items.length }

/-- previous from CircularLinkedList.js: with no current node return null
and stay; otherwise move current one step backwards along the cycle. -/
def previous {α : Type} (s : CircularList α) : CircularList α :=
  if s.items.isEmpty then s
  else { s with cur := (s.cur + s.items.length - 1) % s.items.length }

end CircularList

/-! CombinationSearch -/

/-- The three outcome types of a match. -/
inductive Outcome where
  | home : Outcome
  | draw : Outcome
  | away : Outcome
deriving DecidableEq

/-- One candidate leg of an accumulator: a match outcome together with
its decimal odds, model probability and value%. -/
structure Leg where
  matchId : ℕ
  outcome : Outcome
  odds : ℚ
  prob : ℚ
  valuePct : ℚ
deriving DecidableEq

/-- Risk tolerance levels of a combination request. -/
inductive Risk where
  | conservative : Risk
  | moderate : Risk
  | aggressive : Risk
deriving DecidableEq

/-- A combination request: target combined odds, maximal number of
matches, risk tolerance and the preferred outcome set. -/
structure CombinationRequest where
  targetOdds : ℚ
  maxMatches : ℕ
  risk : Risk
  preferredOutcomes : List Outcome

/-- A found combination: its legs, the combined odds and the combined
confidence. -/
structure Combination where
  legs : List Leg
  combinedOdds : ℚ
  combinedConfidence : ℚ
deriving DecidableEq

/-- Typed error of the combination search, from the spec taxonomy. -/
inductive SearchError where
  | InvalidRequest : SearchError
deriving DecidableEq

/-- Risk thresholds on the model probability of a leg, from the spec
configuration examples (conservative 0.55, moderate 0.40). -/
def riskThreshold : Risk → ℚ
  | Risk.conservative => 11 / 20
  | Risk.moderate => 2 / 5
  | Risk.aggressive => 0

/-- Modelled from the spec: the backend combination engine
(prediction_engine.py) is not in the source tree.  Steps 1 and 2 of the
search: keep outcomes whose type is preferred and whose value% is
non-negative, then apply the risk filter (conservative and moderate
require the model probability to reach the threshold, aggressive accepts
any positive-value outcome). -/
def legPasses (req : CombinationRequest) (l : Leg) : Bool :=
  req.preferredOutcomes.contains l.outcome
    && decide (0 ≤ l.valuePct)
    && (match req.risk with
        | Risk.conservative => decide (riskThreshold Risk.conservative ≤ l.prob)
        | Risk.moderate => decide (riskThreshold Risk.moderate ≤ l.prob)
        | Risk.aggressive => decide (0 < l.valuePct))

/-- No two legs reference the same match. -/
def distinctMatches (legs : List Leg) : Bool :=
  decide (legs.map Leg.matchId).Nodup

/-- Modelled from the spec: step 3 of the search enumerates all
combinations of size 1..maxMatches choosing at most one outcome per
distinct match. -/
def combos (pool : List Leg) (k : ℕ) : List (List Leg) :=
  pool.sublists.filter
    (fun s => decide (1 ≤ s.length) && decide (s.length ≤ k)
      && distinctMatches s)

/-- Modelled from the spec: step 4 computes the combined odds as the
product of the leg odds and the combined confidence as the product of
the leg probabilities. -/
def mkCombination (legs : List Leg) : Combination :=
  { legs := legs
    combinedOdds := (legs.map Leg.odds).prod
    combinedConfidence := (legs.map Leg.prob).prod }

/-- Modelled from the spec: acceptance band of ±20% around the target
odds (the spec example for the configurable band). -/
def withinBand (target odds : ℚ) : Bool :=
  decide (|odds - target| ≤ target / 5)

/-- Ranking order of step 5: proximity to the target odds first, higher
combined confidence as the tie-break. -/
def ranksBefore (target : ℚ) (a b : Combination) : Bool :=
  decide (|a.combinedOdds - target| < |b.combinedOdds - target|
    ∨ (|a.combinedOdds - target| = |b.combinedOdds - target|
        ∧ b.combinedConfidence ≤ a.combinedConfidence))

/-- Insert a combination into an already ranked list. -/
def insertRanked (le : Combination → Combination → Bool)
    (c : Combination) : List Combination → List Combination
  | [] => [c]
  | d :: ds => if le c d then c :: d :: ds else d :: insertRanked le c ds

/-- Rank the surviving combinations, best first (insertion sort by the
composite order). -/
def rankSort (le : Combination → Combination → Bool) :
    List Combination → List Combination
  | [] => []
  | c :: cs => insertRanked le c (rankSort le cs)

/-- Request validity from the spec: target odds within [1.1, 50] and max
match count within 1..5 (matching the frontend input bounds). -/
def validRequest (req : CombinationRequest) : Bool :=
  decide (11 / 10 ≤ req.targetOdds) && decide (req.targetOdds ≤ 50)
    && decide (1 ≤ req.maxMatches) && decide (req.maxMatches ≤ 5)

/-- Modelled from the spec: the backend combination engine
(prediction_engine.py) is not in the source tree.  search validates the
request, filters the pool, enumerates combinations of size
1..maxMatches with distinct matches, keeps those whose combined odds
fall in the acceptance band, ranks them and returns the top 10. -/
def search (pool : List Leg) (req : CombinationRequest) :
    Except SearchError (List Combination) :=
  if validRequest req = true then
    Except.ok
      ((rankSort (ranksBefore req.targetOdds)
          (((combos (pool.filter (legPasses req)) req.maxMatches).map
              mkCombination).filter
            (fun c => withinBand req.targetOdds c.combinedOdds))).take 10)
  else Except.error SearchError.InvalidRequest

/-! Lemmas and theorems. -/

/-- The base of the Elo logistic raised to any real power is positive. -/
lemma tenRpow_pos (x : ℝ) : 0 < (10 : ℝ) ^ x :=
  Real.rpow_pos_of_pos (by norm_num) x

lemma one_add_tenRpow_pos (x : ℝ) : 0 < 1 + (10 : ℝ) ^ x := by
  have := tenRpow_pos x
  linarith

lemma expectedScore_pos (rA rB h : ℝ) : 0 < expectedScore rA rB h := by
  unfold expectedScore
  exact div_pos one_pos (one_add_tenRpow_pos _)

lemma expectedScore_lt_one (rA rB h : ℝ) : expectedScore rA rB h < 1 := by
  unfold expectedScore
  have hp := tenRpow_pos ((rB - rA - h) / 400)
  rw [div_lt_one (one_add_tenRpow_pos _)]
  linarith

/-- Swapping the two ratings and negating the home advantage negates the
exponent, and the two logistic values add to one. -/
lemma expectedScore_add_symm (rA rB h : ℝ) :
    expectedScore rA rB h + expectedScore rB rA (-h) = 1 := by
  unfold expectedScore
  have hx : (rA - rB - -h) / 400 = -((rB - rA - h) / 400) := by ring
  rw [hx, Real.rpow_neg (by norm_num : (0 : ℝ) ≤ 10)]
  set t : ℝ := (10 : ℝ) ^ ((rB - rA - h) / 400) with ht
  have htpos : 0 < t := tenRpow_pos _
  have h1 : 1 + t ≠ 0 := by positivity
  have h2 : 1 + t⁻¹ ≠ 0 := by positivity
  field_simp
  ring

/-- Claim C1: for all finite ratings and any home advantage, expectedScore
equals the logistic formula, lies strictly between 0 and 1, and satisfies
the symmetry expectedScore rA rB h + expectedScore rB rA (-h) = 1. -/
theorem expectedScore_formula_bounds_symm (rA rB h : ℝ) :
    expectedScore rA rB h
        = 1 / (1 + (10 : ℝ) ^ ((rB - rA - h) / 400)) ∧
      0 < expectedScore rA rB h ∧
      expectedScore rA rB h < 1 ∧
      expectedScore rA rB h + expectedScore rB rA (-h) = 1 :=
  ⟨rfl, expectedScore_pos rA rB h, expectedScore_lt_one rA rB h,
    expectedScore_add_symm rA rB h⟩

/-- Claim C2: for finite ratings, any home advantage and any draw factor
(which the spec fixes to be a likelihood, i.e. a value in [0,1]), the
three outcome probabilities each lie in [0,1] and their sum is 1 within
the 1e-6 tolerance (here: exactly 1, hence within tolerance). -/
theorem outcomeProbabilities_bounds_sum
    (hr ar ha d : ℝ) (hd0 : 0 ≤ d) (hd1 : d ≤ 1) :
    0 ≤ (outcomeProbabilities hr ar ha d).home ∧
      (outcomeProbabilities hr ar ha d).home ≤ 1 ∧
      0 ≤ (outcomeProbabilities hr ar ha d).draw ∧
      (outcomeProbabilities hr ar ha d).draw ≤ 1 ∧
      0 ≤ (outcomeProbabilities hr ar ha d).away ∧
      (outcomeProbabilities hr ar ha d).away ≤ 1 ∧
      |(outcomeProbabilities hr ar ha d).home
          + (outcomeProbabilities hr ar ha d).draw
          + (outcomeProbabilities hr ar ha d).away - 1|
        ≤ 1 / 1000000 := by
  have hsum : expectedScore hr ar ha + expectedScore ar hr (-ha) = 1 :=
    expectedScore_add_symm hr ar ha
  have hHpos := expectedScore_pos hr ar ha
  have hApos := expectedScore_pos ar hr (-ha)
  have hHlt := expectedScore_lt_one hr ar ha
  have hAlt := expectedScore_lt_one ar hr (-ha)
  unfold outcomeProbabilities
  simp only
  set eH := expectedScore hr ar ha with heH
  set eA := expectedScore ar hr (-ha) with heA
  have hEA : eH + eA = 1 := hsum
  rw [hEA]
  simp only [div_one]
  constructor
  · nlinarith
  constructor
  · nlinarith
  constructor
  · exact hd0
  constructor
  · exact hd1
  constructor
  · nlinarith
  constructor
  · nlinarith
  · have : (1 - d) * eH + d + (1 - d) * eA - 1 = 0 := by nlinarith
    rw [this]
    norm_num

/-- Witness for claim C2 at ratings 1500 and 1400, home advantage 50 and
draw factor 1/4. -/
theorem outcomeProbabilities_bounds_sum_witness :
    (0 : ℝ) ≤ 1 / 4 ∧ (1 / 4 : ℝ) ≤ 1 ∧
      (0 ≤ (outcomeProbabilities 1500 1400 50 (1 / 4)).home ∧
        (outcomeProbabilities 1500 1400 50 (1 / 4)).home ≤ 1 ∧
        0 ≤ (outcomeProbabilities 1500 1400 50 (1 / 4)).draw ∧
        (outcomeProbabilities 1500 1400 50 (1 / 4)).draw ≤ 1 ∧
        0 ≤ (outcomeProbabilities 1500 1400 50 (1 / 4)).away ∧
        (outcomeProbabilities 1500 1400 50 (1 / 4)).away ≤ 1 ∧
        |(outcomeProbabilities 1500 1400 50 (1 / 4)).home
            + (outcomeProbabilities 1500 1400 50 (1 / 4)).draw
            + (outcomeProbabilities 1500 1400 50 (1 / 4)).away - 1|
          ≤ 1 / 1000000) :=
  ⟨by norm_num, by norm_num,
    outcomeProbabilities_bounds_sum 1500 1400 50 (1 / 4)
      (by norm_num) (by norm_num)⟩

/-- Claim C8: with a positive K-factor and an expected score strictly
between 0 and 1, a win (actual score 1) never decreases the rating and a
loss (actual score 0) never increases it. -/
theorem updateRating_monotone
    (r e k : ℚ) (he0 : 0 < e) (he1 : e < 1) (hk : 0 < k) :
    r ≤ updateRating r e 1 k ∧ updateRating r e 0 k ≤ r := by
  unfold updateRating
  constructor
  · nlinarith
  · nlinarith

/-- Witness for claim C8 at rating 1500, expected score 3/4, K-factor 32. -/
theorem updateRating_monotone_witness :
    (0 : ℚ) < 3 / 4 ∧ (3 / 4 : ℚ) < 1 ∧ (0 : ℚ) < 32 ∧
      ((1500 : ℚ) ≤ updateRating 1500 (3 / 4) 1 32 ∧
        updateRating 1500 (3 / 4) 0 32 ≤ 1500) :=
  ⟨by norm_num, by norm_num, by norm_num,
    updateRating_monotone 1500 (3 / 4) 32
      (by norm_num) (by norm_num) (by norm_num)⟩

/-- Claim C3: when all odds exceed 1, evaluate succeeds and each value%
is (p - 1/odds) / (1/odds) * 100 rounded to one decimal; at odds 2 and
model probability 0.6 the value% is exactly 20.0. -/
theorem evaluate_value_formula (p : ModelProbs) (o : MatchOdds)
    (hh : 1 < o.home) (hd : 1 < o.draw) (ha : 1 < o.away) :
    evaluate p o = Except.ok (annotate p o) ∧
      (annotate p o).value_home
        = roundTo1 ((p.home - 1 / o.home) / (1 / o.home) * 100) ∧
      (annotate p o).value_draw
        = roundTo1 ((p.draw - 1 / o.draw) / (1 / o.draw) * 100) ∧
      (annotate p o).value_away
        = roundTo1 ((p.away - 1 / o.away) / (1 / o.away) * 100) ∧
      valuePercent (3 / 5) 2 = 20 := by
  refine ⟨?_, rfl, rfl, rfl, ?_⟩
  · unfold evaluate
    rw [if_neg]
    push_neg
    exact ⟨hh, hd, ha⟩
  · simp only [valuePercent, roundTo1, round_eq]
    norm_num

/-- Witness for claim C3 at odds (2, 3, 4) and model probabilities
(3/5, 1/5, 1/5). -/
theorem evaluate_value_formula_witness :
    (1 : ℚ) < 2 ∧ (1 : ℚ) < 3 ∧ (1 : ℚ) < 4 ∧
      (evaluate { home := 3 / 5, draw := 1 / 5, away := 1 / 5 }
            { home := 2, draw := 3, away := 4 }
          = Except.ok
              (annotate { home := 3 / 5, draw := 1 / 5, away := 1 / 5 }
                { home := 2, draw := 3, away := 4 }) ∧
        (annotate { home := 3 / 5, draw := 1 / 5, away := 1 / 5 }
              { home := 2, draw := 3, away := 4 }).value_home
          = roundTo1 ((3 / 5 - 1 / (2 : ℚ)) / (1 / 2) * 100) ∧
        (annotate { home := 3 / 5, draw := 1 / 5, away := 1 / 5 }
              { home := 2, draw := 3, away := 4 }).value_draw
          = roundTo1 ((1 / 5 - 1 / (3 : ℚ)) / (1 / 3) * 100) ∧
        (annotate { home := 3 / 5, draw := 1 / 5, away := 1 / 5 }
              { home := 2, draw := 3, away := 4 }).value_away
          = roundTo1 ((1 / 5 - 1 / (4 : ℚ)) / (1 / 4) * 100) ∧
        valuePercent (3 / 5) 2 = 20) :=
  ⟨by norm_num, by norm_num, by norm_num,
    evaluate_value_formula
      { home := 3 / 5, draw := 1 / 5, away := 1 / 5 }
      { home := 2, draw := 3, away := 4 }
      (by norm_num) (by norm_num) (by norm_num)⟩

/-- Claim C5: whenever any outcome has odds at most 1, evaluate fails with
the typed error InvalidOdds (and so never returns a numeric value%). -/
theorem evaluate_invalid_odds (p : ModelProbs) (o : MatchOdds)
    (h : o.home ≤ 1 ∨ o.draw ≤ 1 ∨ o.away ≤ 1) :
    evaluate p o = Except.error EvalError.InvalidOdds := by
  unfold evaluate
  rw [if_pos h]

/-- Witness for claim C5 at odds (1, 3, 4). -/
theorem evaluate_invalid_odds_witness :
    ((1 : ℚ) ≤ 1 ∨ (3 : ℚ) ≤ 1 ∨ (4 : ℚ) ≤ 1) ∧
      evaluate { home := 1 / 2, draw := 1 / 4, away := 1 / 4 }
          { home := 1, draw := 3, away := 4 }
        = Except.error EvalError.InvalidOdds :=
  ⟨Or.inl (by norm_num),
    evaluate_invalid_odds
      { home := 1 / 2, draw := 1 / 4, away := 1 / 4 }
      { home := 1, draw := 3, away := 4 }
      (Or.inl (by norm_num))⟩

/-- Claim C4: an outcome is flagged as a value bet iff its value% exceeds
the threshold (default 0), and the frontend filter and positive/neutral
display implement exactly the comparison value% > 0. -/
theorem valueBet_threshold_filter (m : MatchRow) (v : ℚ) :
    (isValueBet defaultThreshold v = true ↔ 0 < v) ∧
      matchPassesFilter Filter.all m = true ∧
      (matchPassesFilter Filter.home m = true ↔ 0 < m.value_home) ∧
      (matchPassesFilter Filter.draw m = true ↔ 0 < m.value_draw) ∧
      (matchPassesFilter Filter.away m = true ↔ 0 < m.value_away) ∧
      (valueClass v = "positive" ↔ 0 < v) := by
  refine ⟨?_, rfl, ?_, ?_, ?_, ?_⟩
  · simp [isValueBet, defaultThreshold]
  · simp [matchPassesFilter]
  · simp [matchPassesFilter]
  · simp [matchPassesFilter]
  · unfold valueClass
    split_ifs with h
    · simp [h]
    · simp [h]

/-- Claim C9: getBestBet returns a bet whose value is the maximum of the
three value figures, and on ties the earliest of Home Win, Draw,
Away Win in that order wins (strict greater-than keeps the earlier). -/
theorem getBestBet_max_earliest (m : MatchRow) :
    (getBestBet m).value
        = max (max m.value_home m.value_draw) m.value_away ∧
      (getBestBet m).type
        = (if max (max m.value_home m.value_draw) m.value_away
                ≤ m.value_home then "Home Win"
           else if max (max m.value_home m.value_draw) m.value_away
                ≤ m.value_draw then "Draw"
           else "Away Win") := by
  constructor <;>
    · simp only [getBestBet, List.foldl, max_def]
      split_ifs <;> simp_all <;> linarith

/-- Folding add over a nonempty state appends the items, keeps the
current index and adds the number of new items to the size counter. -/
lemma CircularList.foldl_add_of_ne_nil {α : Type} (xs : List α) :
    ∀ s : CircularList α, s.items ≠ [] →
      xs.foldl add s
        = { items := s.items ++ xs, cur := s.cur, size := s.size + xs.length } := by
  induction xs with
  | nil =>
      intro s _
      cases s with
      | mk items cur size => simp
  | cons x rest ih =>
      intro s hs
      have hne : s.items.isEmpty = false := by
        simpa [List.isEmpty_iff] using hs
      have hstep : add s x
          = { items := s.items ++ [x], cur := s.cur, size := s.size + 1 } := by
        unfold add
        rw [hne]
        simp
      rw [List.foldl_cons, hstep,
        ih { items := s.items ++ [x], cur := s.cur, size := s.size + 1 }
          (by simp)]
      simp
      omega

/-- rebuild produces exactly the given items, with the current index at
the head and the size counter equal to the length. -/
lemma CircularList.rebuild_eq {α : Type} (s : CircularList α) (xs : List α) :
    rebuild s xs = { items := xs, cur := 0, size := xs.length } := by
  cases xs with
  | nil => simp [rebuild, clear, empty]
  | cons x rest =>
      unfold rebuild clear
      rw [List.foldl_cons]
      have hstep : add (empty : CircularList α) x
          = { items := [x], cur := 0, size := 1 } := by
        simp [add, empty]
      rw [hstep, foldl_add_of_ne_nil rest { items := [x], cur := 0, size := 1 }
        (by simp)]
      simp
      omega

/-- Claim C10: rebuilding from an array and reading back with toArray
returns the same items in order, getSize equals the length, getCurrent
is the first item (head) after a rebuild, and from any valid current
position next followed by previous leaves the current item unchanged. -/
theorem circularList_rebuild_roundtrip {α : Type}
    (s t : CircularList α) (xs : List α)
    (hcur : t.cur < t.items.length) :
    CircularList.toArray (CircularList.rebuild s xs) = xs ∧
      CircularList.getSize (CircularList.rebuild s xs) = xs.length ∧
      CircularList.getCurrent (CircularList.rebuild s xs) = xs.head? ∧
      CircularList.getCurrent (CircularList.previous (CircularList.next t))
        = CircularList.getCurrent t := by
  refine ⟨?_, ?_, ?_, ?_⟩
  · rw [CircularList.rebuild_eq]
    rfl
  · rw [CircularList.rebuild_eq]
    rfl
  · rw [CircularList.rebuild_eq]
    unfold CircularList.getCurrent
    cases xs <;> simp
  · have hlen : 0 < t.items.length := Nat.lt_of_le_of_lt (Nat.zero_le _) hcur
    have hne : t.items.isEmpty = false := by
      cases h : t.items with
      | nil => rw [h] at hlen; exact absurd hlen (by simp)
      | cons a l => simp [h]
    set n := t.items.length with hn
    have hnext : CircularList.next t = { t with cur := (t.cur + 1) % n } := by
      unfold CircularList.next
      rw [hne]
      simp
    have hprev : CircularList.previous { t with cur := (t.cur + 1) % n }
        = { t with cur := ((t.cur + 1) % n + n - 1) % n } := by
      unfold CircularList.previous
      rw [hne]
      simp
    rw [hnext, hprev]
    have hidx : ((t.cur + 1) % n + n - 1) % n = t.cur := by
      rcases Nat.lt_or_ge (t.cur + 1) n with hlt | hge
      · rw [Nat.mod_eq_of_lt hlt]
        have h1 : t.cur + 1 + n - 1 = t.cur + n := by omega
        rw [h1, Nat.add_mod_right]
        exact Nat.mod_eq_of_lt hcur
      · have heq : t.cur + 1 = n := by omega
        rw [heq, Nat.mod_self]
        have h2 : 0 + n - 1 = n - 1 := by omega
        rw [h2, Nat.mod_eq_of_lt (by omega)]
        omega
    unfold CircularList.getCurrent
    simp [hidx]

/-- Witness for claim C10 on the array [10, 20, 30] and a state whose
current index 1 is within its two items. -/
theorem circularList_rebuild_roundtrip_witness :
    ({ items := [7, 8], cur := 1, size := 2 } :
        CircularList ℕ).cur
        < ({ items := [7, 8], cur := 1, size := 2 } :
            CircularList ℕ).items.length ∧
      (CircularList.toArray
            (CircularList.rebuild (CircularList.empty : CircularList ℕ)
              [10, 20, 30]) = [10, 20, 30] ∧
        CircularList.getSize
            (CircularList.rebuild (CircularList.empty : CircularList ℕ)
              [10, 20, 30]) = ([10, 20, 30] : List ℕ).length ∧
        CircularList.getCurrent
            (CircularList.rebuild (CircularList.empty : CircularList ℕ)
              [10, 20, 30]) = ([10, 20, 30] : List ℕ).head? ∧
        CircularList.getCurrent
            (CircularList.previous
              (CircularList.next
                ({ items := [7, 8], cur := 1, size := 2 } : CircularList ℕ)))
          = CircularList.getCurrent
              ({ items := [7, 8], cur := 1, size := 2 } : CircularList ℕ)) :=
  ⟨by decide,
    circularList_rebuild_roundtrip
      (CircularList.empty : CircularList ℕ)
      ({ items := [7, 8], cur := 1, size := 2 } : CircularList ℕ)
      [10, 20, 30] (by decide)⟩

/-- Membership is preserved by ranked insertion. -/
lemma mem_insertRanked (le : Combination → Combination → Bool)
    (c a : Combination) :
    ∀ l : List Combination, a ∈ insertRanked le c l ↔ a = c ∨ a ∈ l := by
  intro l
  induction l with
  | nil => simp [insertRanked]
  | cons d ds ih =>
      unfold insertRanked
      split_ifs with h
      · constructor
        · intro hm
          rcases List.mem_cons.mp hm with h1 | h2
          · exact Or.inl h1
          · exact Or.inr h2
        · intro hm
          rcases hm with h1 | h2
          · exact List.mem_cons.mpr (Or.inl h1)
          · exact List.mem_cons.mpr (Or.inr h2)
      · constructor
        · intro hm
          rcases List.mem_cons.mp hm with h1 | h2
          · exact Or.inr (List.mem_cons.mpr (Or.inl h1))
          · rcases (ih).mp h2 with h3 | h4
            · exact Or.inl h3
            · exact Or.inr (List.mem_cons.mpr (Or.inr h4))
        · intro hm
          rcases hm with h1 | h2
          · exact List.mem_cons.mpr (Or.inr ((ih).mpr (Or.inl h1)))
          · rcases List.mem_cons.mp h2 with h3 | h4
            · exact List.mem_cons.mpr (Or.inl h3)
            · exact List.mem_cons.mpr (Or.inr ((ih).mpr (Or.inr h4)))

/-- Membership is preserved by the ranking sort. -/
lemma mem_rankSort (le : Combination → Combination → Bool)
    (a : Combination) :
    ∀ l : List Combination, a ∈ rankSort le l ↔ a ∈ l := by
  intro l
  induction l with
  | nil => simp [rankSort]
  | cons c cs ih =>
      unfold rankSort
      rw [mem_insertRanked, ih, List.mem_cons]

/-- Claim C6: every combination returned by search has at most
maxMatches legs, references no match twice, and carries the product of
its leg odds as combined odds and the product of its leg probabilities
as combined confidence. -/
theorem search_combination_invariants
    (pool : List Leg) (req : CombinationRequest) (cs : List Combination)
    (h : search pool req = Except.ok cs) (c : Combination) (hc : c ∈ cs) :
    c.legs.length ≤ req.maxMatches ∧
      (c.legs.map Leg.matchId).Nodup ∧
      c.combinedOdds = (c.legs.map Leg.odds).prod ∧
      c.combinedConfidence = (c.legs.map Leg.prob).prod := by
  unfold search at h
  by_cases hv : validRequest req = true
  · rw [if_pos hv] at h
    have hcs := Except.ok.inj h
    subst hcs
    have h1 : c ∈ rankSort (ranksBefore req.targetOdds)
        (((combos (pool.filter (legPasses req)) req.maxMatches).map
            mkCombination).filter
          (fun x => withinBand req.targetOdds x.combinedOdds)) :=
      List.mem_of_mem_take hc
    have h2 : c ∈ ((combos (pool.filter (legPasses req))
        req.maxMatches).map mkCombination).filter
          (fun x => withinBand req.targetOdds x.combinedOdds) :=
      (mem_rankSort _ _ _).mp h1
    have h3 : c ∈ (combos (pool.filter (legPasses req))
        req.maxMatches).map mkCombination :=
      (List.mem_filter.mp h2).1
    rcases List.mem_map.mp h3 with ⟨legs, hlegs, hcEq⟩
    have h4 := (List.mem_filter.mp hlegs).2
    rw [Bool.and_eq_true, Bool.and_eq_true] at h4
    have hlen : legs.length ≤ req.maxMatches :=
      of_decide_eq_true h4.1.2
    have hnd : (legs.map Leg.matchId).Nodup :=
      of_decide_eq_true h4.2
    subst hcEq
    exact ⟨hlen, hnd, rfl, rfl⟩
  · rw [if_neg hv] at h
    exact absurd h (by simp)

/-- Witness for claim C6: a one-leg pool, a valid request with target
odds 2, and the single combination found. -/
theorem search_combination_invariants_witness :
    search
          [{ matchId := 0, outcome := Outcome.home, odds := 2,
             prob := 1 / 2, valuePct := 5 }]
          { targetOdds := 2, maxMatches := 1, risk := Risk.aggressive,
            preferredOutcomes := [Outcome.home] }
        = Except.ok
            [mkCombination
              [{ matchId := 0, outcome := Outcome.home, odds := 2,
                 prob := 1 / 2, valuePct := 5 }]] ∧
      (mkCombination
            [{ matchId := 0, outcome := Outcome.home, odds := 2,
               prob := 1 / 2, valuePct := 5 }]).legs.length
          ≤ (1 : ℕ) ∧
      ((mkCombination
            [{ matchId := 0, outcome := Outcome.home, odds := 2,
               prob := 1 / 2, valuePct := 5 }]).legs.map
          Leg.matchId).Nodup ∧
      (mkCombination
            [{ matchId := 0, outcome := Outcome.home, odds := 2,
               prob := 1 / 2, valuePct := 5 }]).combinedOdds
        = ((mkCombination
              [{ matchId := 0, outcome := Outcome.home, odds := 2,
                 prob := 1 / 2, valuePct := 5 }]).legs.map
            Leg.odds).prod ∧
      (mkCombination
            [{ matchId := 0, outcome := Outcome.home, odds := 2,
               prob := 1 / 2, valuePct := 5 }]).combinedConfidence
        = ((mkCombination
              [{ matchId := 0, outcome := Outcome.home, odds := 2,
                 prob := 1 / 2, valuePct := 5 }]).legs.map
            Leg.prob).prod := by
  have h : search
        [{ matchId := 0, outcome := Outcome.home, odds := 2,
           prob := 1 / 2, valuePct := 5 }]
        { targetOdds := 2, maxMatches := 1, risk := Risk.aggressive,
          preferredOutcomes := [Outcome.home] }
      = Except.ok
          [mkCombination
            [{ matchId := 0, outcome := Outcome.home, odds := 2,
               prob := 1 / 2, valuePct := 5 }]] := by
    have hvalid : validRequest
        { targetOdds := 2, maxMatches := 1, risk := Risk.aggressive,
          preferredOutcomes := [Outcome.home] } = true := by
      simp only [validRequest, Bool.and_eq_true, decide_eq_true_eq]
      refine ⟨⟨⟨?_, ?_⟩, ?_⟩, ?_⟩ <;> norm_num
    have hpass : legPasses
        { targetOdds := 2, maxMatches := 1, risk := Risk.aggressive,
          preferredOutcomes := [Outcome.home] }
        { matchId := 0, outcome := Outcome.home, odds := 2,
          prob := 1 / 2, valuePct := 5 } = true := by
      simp only [legPasses, Bool.and_eq_true, decide_eq_true_eq]
      refine ⟨⟨?_, ?_⟩, ?_⟩
      · rfl
      · norm_num
      · norm_num
    unfold search
    rw [if_pos hvalid]
    dsimp only
    rw [List.filter_cons_of_pos hpass]
    have hcombos : combos
        [{ matchId := 0, outcome := Outcome.home, odds := 2,
           prob := 1 / 2, valuePct := 5 }] 1
        = [[{ matchId := 0, outcome := Outcome.home, odds := 2,
              prob := 1 / 2, valuePct := 5 }]] := rfl
    rw [List.filter_nil, hcombos, List.map_cons, List.map_nil]
    have hband : withinBand (2 : ℚ)
        (mkCombination
          [{ matchId := 0, outcome := Outcome.home, odds := 2,
             prob := 1 / 2, valuePct := 5 }]).combinedOdds = true := by
      simp only [withinBand, mkCombination, List.map_cons, List.map_nil,
        List.prod_cons, List.prod_nil, decide_eq_true_eq]
      norm_num
    simp only [List.filter_singleton, hband, cond_true]
    rfl
  refine ⟨h, ?_⟩
  have := search_combination_invariants
    [{ matchId := 0, outcome := Outcome.home, odds := 2,
       prob := 1 / 2, valuePct := 5 }]
    { targetOdds := 2, maxMatches := 1, risk := Risk.aggressive,
      preferredOutcomes := [Outcome.home] }
    [mkCombination
      [{ matchId := 0, outcome := Outcome.home, odds := 2,
         prob := 1 / 2, valuePct := 5 }]]
    h
    (mkCombination
      [{ matchId := 0, outcome := Outcome.home, odds := 2,
         prob := 1 / 2, valuePct := 5 }])
    (List.mem_singleton.mpr rfl)
  exact this

/-- Claim C7: search fails with InvalidRequest exactly when the target
odds are below 1.1 or above 50 or the max match count is outside 1..5;
inside the bounds an empty pool yields the empty list, not an error. -/
theorem search_invalid_request (pool : List Leg) (req : CombinationRequest) :
    (search pool req = Except.error SearchError.InvalidRequest
        ↔ (req.targetOdds < 11 / 10 ∨ 50 < req.targetOdds
            ∨ req.maxMatches < 1 ∨ 5 < req.maxMatches)) ∧
      ((11 / 10 ≤ req.targetOdds ∧ req.targetOdds ≤ 50
          ∧ 1 ≤ req.maxMatches ∧ req.maxMatches ≤ 5) →
        search ([] : List Leg) req = Except.ok []) := by
  have hval : validRequest req = true
      ↔ (11 / 10 ≤ req.targetOdds ∧ req.targetOdds ≤ 50
          ∧ 1 ≤ req.maxMatches ∧ req.maxMatches ≤ 5) := by
    unfold validRequest
    rw [Bool.and_eq_true, Bool.and_eq_true, Bool.and_eq_true]
    simp only [decide_eq_true_eq]
    tauto
  constructor
  · by_cases hv : validRequest req = true
    · unfold search
      rw [if_pos hv]
      have hb := hval.mp hv
      constructor
      · intro hcontra
        exact absurd hcontra (by simp)
      · intro hor
        rcases hor with h1 | h1 | h1 | h1
        · exact absurd hb.1 (not_le.mpr h1)
        · exact absurd hb.2.1 (not_le.mpr h1)
        · omega
        · omega
    · unfold search
      rw [if_neg hv]
      have hb : ¬(11 / 10 ≤ req.targetOdds ∧ req.targetOdds ≤ 50
          ∧ 1 ≤ req.maxMatches ∧ req.maxMatches ≤ 5) := fun hc =>
        hv (hval.mpr hc)
      rw [not_and_or, not_and_or, not_and_or, not_le, not_le,
        not_le, not_le] at hb
      exact ⟨fun _ => hb, fun _ => rfl⟩
  · intro hbound
    unfold search
    rw [if_pos (hval.mpr hbound)]
    rfl

/-- Witness for claim C7 with the frontend default request (target odds
3, two matches at most) on an empty pool. -/
theorem search_invalid_request_witness :
    ((11 / 10 : ℚ) ≤ 3 ∧ (3 : ℚ) ≤ 50 ∧ (1 : ℕ) ≤ 2 ∧ (2 : ℕ) ≤ 5) ∧
      search ([] : List Leg)
          { targetOdds := 3, maxMatches := 2, risk := Risk.moderate,
            preferredOutcomes := [Outcome.home, Outcome.away] }
        = Except.ok [] :=
  ⟨⟨by norm_num, by norm_num, by norm_num, by norm_num⟩,
    (search_invalid_request ([] : List Leg)
        { targetOdds := 3, maxMatches := 2, risk := Risk.moderate,
          preferredOutcomes := [Outcome.home, Outcome.away] }).2
      ⟨by norm_num, by norm_num, by norm_num, by norm_num⟩⟩

end FootballPredict
